import Mathlib

/-!
Verification of the workflow orchestration engine of `video-toolkit-refactored`.

The definitions below are a shallow embedding of the Python sources:

* `src/core/workflow/manager.py` — `WorkflowContext`, `WorkflowManager`
  (`execute_workflow`, `_prepare_workflow`, `_validate_workflow_steps`,
  `_execute_step`, `_get_step_timeout`, `_is_critical_step`,
  `cancel_workflow`);
* `src/core/workflow/steps.py` — `WorkflowStepExecutor.execute_step` and the
  per-step handlers `_download`, `_concat`, `_subtitle`, `_translate`,
  `_embed`, `_split_final`, `_watermark`, `_upload`, `_noop`;
* `src/core/workflow/parallel_upload.py` — `upload_to_platform`,
  `parallel_upload`, `save_upload_results`.

External collaborators (ffmpeg wrappers, downloaders, Whisper, translators,
platform uploaders) are opaque from the engine's point of view; they are
modelled as a record of abstract outcome functions (`Collaborators`).
Wall-clock timestamps (`start_time`, `end_time`, `created_at`) are not
modelled: no property below depends on them.  Step durations are modelled
abstractly (`stepDuration`) in order to express the timeout policy of
`WorkflowManager._execute_step`.

Concurrency inside `parallel_upload` is modelled operationally: each
destination is a task that must acquire one of `limit` semaphore permits
before running (`asyncio.Semaphore(limit)`), and a nondeterministic scheduler
interleaves acquisitions and completions.  `asyncio.gather` stores each
task's result at the index of the task in the input list, which the model
mirrors by keeping the per-task phase in an input-indexed list.
-/

namespace VideoToolkit

/-- A path-like reference to a file or directory (Python `Path` / `str`). -/
abbrev FileRef := String

/-- Python's `str.startswith`, computed on the underlying character list. -/
def str_startsWith (s pre : String) : Bool :=
  List.isPrefixOf pre.data s.data

/-- `core.constants.ProcessingStatus` — the five workflow statuses used by
`manager.py`. -/
inductive ProcessingStatus
  | pending
  | running
  | completed
  | failed
  | cancelled
deriving DecidableEq, Repr

/-- The step identifiers dispatched by `WorkflowStepExecutor.execute_step`
(`steps.py`); `_validate_workflow_steps` checks membership in
`{step.value for step in WorkflowStep}`, whose values are exactly the
dispatched names. -/
def validSteps : List String :=
  ["download", "concat", "split_av", "isolate_vocals", "merge_av",
   "subtitle", "translate_subtitle", "embed_subtitle", "split_final",
   "watermark", "upload"]

/-- The hard-coded `step_dependencies` table of
`WorkflowManager._validate_workflow_steps` (`manager.py:222`). -/
def stepDependencies : String → List String
  | "merge_av" => ["split_av"]
  | "translate_subtitle" => ["subtitle"]
  | "embed_subtitle" => ["subtitle"]
  | _ => []

/-- The two ways `_validate_workflow_steps` raises
`WorkflowValidationError`: some listed steps are unknown, or a listed step
has a dependency that is absent from the list. -/
inductive ValidationErr
  | invalidSteps (bad : List String)
  | missingDep (step dep : String)
deriving DecidableEq, Repr

/-- The dependency loop of `_validate_workflow_steps`: for each step of the
list (in list order), raise on the first dependency not contained in the
full list. -/
def check_dependencies : List String → List String → Except ValidationErr Unit
  | [], _ => Except.ok ()
  | s :: rest, all =>
    match (stepDependencies s).find? (fun d => !(all.contains d)) with
    | some d => Except.error (ValidationErr.missingDep s d)
    | none => check_dependencies rest all

/-- `WorkflowManager._validate_workflow_steps` (`manager.py:211-234`):
first reject unknown step names, then check that every dependency of every
listed step is contained in the list. -/
def validate_workflow_steps (steps : List String) : Except ValidationErr Unit :=
  let invalid := steps.filter (fun s => !(validSteps.contains s))
  if invalid.isEmpty then
    check_dependencies steps steps
  else
    Except.error (ValidationErr.invalidSteps invalid)

/-- Spec-side predicate: every listed step is a known step identifier. -/
def allStepsKnown (steps : List String) : Prop :=
  ∀ s ∈ steps, s ∈ validSteps

instance (steps : List String) : Decidable (allStepsKnown steps) := by
  unfold allStepsKnown; infer_instance

/-- Spec-side predicate: every dependency of every listed step occurs
somewhere in the list (the membership check the code actually performs). -/
def depsPresent (steps : List String) : Prop :=
  ∀ s ∈ steps, ∀ d ∈ stepDependencies s, d ∈ steps

instance (steps : List String) : Decidable (depsPresent steps) := by
  unfold depsPresent; infer_instance

/-- Spec-side predicate, following the spec's words for C1: every dependency
of every listed step occurs strictly earlier in the list than the dependent
step. -/
def depsOccurEarlier (steps : List String) : Prop :=
  ∀ i : Fin steps.length, ∀ d ∈ stepDependencies (steps.get i),
    d ∈ steps.take i.val

instance (steps : List String) : Decidable (depsOccurEarlier steps) := by
  unfold depsOccurEarlier; infer_instance

/-! ## Parallel distribution (`parallel_upload.py`) — data and pure outcome -/

/-- The per-destination outcome dictionary built by `upload_to_platform`
(`parallel_upload.py:19-35`): `{"platform": ..., "success": ..., "error"?}`. -/
structure UploadResult where
  platform : String
  success : Bool
  error : Option String
deriving DecidableEq, Repr

/-- `upload_to_platform` (`parallel_upload.py:19-35`).  The fallible body of
each known-platform branch (caption rendering plus the platform uploader,
whose raised exception becomes the `error` string of the `except` clause) is
abstracted as `attempt : String → Except String Bool`; the `else` branch for
a platform that is neither `tiktok` nor `telegram` returns the
`not_implemented` outcome without consulting any uploader. -/
def upload_to_platform (attempt : String → Except String Bool) (platform : String) : UploadResult :=
  if platform = "tiktok" ∨ platform = "telegram" then
    match attempt platform with
    | Except.ok ok => { platform := platform, success := ok, error := none }
    | Except.error e => { platform := platform, success := false, error := some e }
  else
    { platform := platform, success := false, error := some "not_implemented" }

/-- The value of `await parallel_upload(platforms, ...)` once every task has
completed: `asyncio.gather` places each task's result at the input index of
its task, so the list is `platforms` mapped through `upload_to_platform`.
The bounded-concurrency scheduling itself is modelled operationally below
(`SchedStep`), and `parallel_upload_terminal` proves that every completed
schedule produces exactly this list. -/
def parallel_upload_results (attempt : String → Except String Bool)
    (platforms : List String) : List UploadResult :=
  platforms.map (upload_to_platform attempt)

/-- Default value of the `limit` parameter of `parallel_upload`
(`parallel_upload.py:38`); `WorkflowStepExecutor._upload` also passes 2
explicitly (`steps.py:172`). -/
def parallel_upload_default_limit : Nat := 2

/-! ## Execution context and collaborators -/

/-- One entry of `WorkflowContext.output_files` as appended by
`add_output_file` (`manager.py:57-63`); the Python `created_at` timestamp is
not modelled.  `ftype` is the Python `type` key. -/
structure OutputFile where
  path : FileRef
  ftype : String
deriving DecidableEq, Repr

/-- The result dictionary `{"execution_time": ...}` returned by
`WorkflowStepExecutor.execute_step` (`steps.py:51`) and stored in
`context.step_results`. -/
structure StepResult where
  execution_time : Nat
deriving DecidableEq, Repr

/-- The message payload of a `StepError` raised by
`WorkflowManager._execute_step` (`manager.py:275-285`): either the timeout
message (which names the timeout in seconds) or the wrapped cause of any
other exception. -/
inductive StepFailure
  | timeout (timeout_seconds : Nat)
  | execError (cause : String)
deriving DecidableEq, Repr

/-- `core.exceptions.StepError` as raised by `_execute_step`: it carries the
step name and the failure message. -/
structure StepError where
  step : String
  failure : StepFailure
deriving DecidableEq, Repr

/-- The exception stored in `WorkflowContext.error` by `set_error`:
a `StepError` (per-step handler, `manager.py:132`), the
`WorkflowExecutionError` wrapper raised for a critical step
(`manager.py:136-138`, caught at `manager.py:162`), or a
`WorkflowValidationError` from `_prepare_workflow`. -/
inductive WorkflowError
  | stepErr (e : StepError)
  | executionError (step : String) (cause : StepFailure)
  | validationError (v : ValidationErr)
deriving DecidableEq, Repr

/-- The recognized keys of the `options` dictionary
(`manager.py:195-201`, `steps.py:170`): `platforms` and `split_duration`.
A `none` field models an absent key. -/
structure WorkflowOptions where
  platforms : Option (List String) := none
  split_duration : Option Nat := none
deriving DecidableEq, Repr

/-- The slice of the global configuration (`get_config()`) the embedded code
reads or writes: `config.processing.split_duration` and
`config.platforms.enabled_platforms`. -/
structure Config where
  split_duration : Option Nat
  enabled_platforms : List String
deriving DecidableEq, Repr

/-- `WorkflowContext` (`manager.py:30-78`).  Timestamps, the `audio_file`
field (never written by any embedded step) and the `metadata` dictionary are
not modelled.  Two extra fields record observable effects that the Python
code sends elsewhere: `saved_upload_record` models the
`upload_results.json` file written by `save_upload_results` beneath the
working directory, and `invoked_platforms` is a ghost log of the platforms
whose upload handler was invoked. -/
structure WorkflowContext where
  video_source : String
  options : WorkflowOptions
  current_step : Option String := none
  status : ProcessingStatus := ProcessingStatus.pending
  error : Option WorkflowError := none
  working_dir : Option FileRef := none
  video_file : Option FileRef := none
  subtitle_files : List FileRef := []
  output_files : List OutputFile := []
  step_results : List (String × StepResult) := []
  upload_results : List (String × Bool) := []
  saved_upload_record : Option (List UploadResult) := none
  invoked_platforms : List String := []
deriving DecidableEq, Repr

/-- `WorkflowContext.add_output_file` (`manager.py:57-63`). -/
def add_output_file (ctx : WorkflowContext) (p : FileRef) (ftype : String) : WorkflowContext :=
  { ctx with output_files := ctx.output_files ++ [{ path := p, ftype := ftype }] }

/-- `WorkflowContext.set_error` (`manager.py:72-78`): store the error,
force the status to `FAILED`, and update `current_step` when a step name is
given. -/
def set_error (ctx : WorkflowContext) (e : WorkflowError) (step : Option String) : WorkflowContext :=
  { ctx with
    error := some e,
    status := ProcessingStatus.failed,
    current_step := match step with
      | some s => some s
      | none => ctx.current_step }

/-- Outcomes of the external collaborators each step handler delegates to
(downloaders, ffmpeg wrappers, Whisper, the translator, the platform
uploaders), plus the filesystem predicates the handlers consult and the
wall-clock duration each step takes (used only by the timeout policy). -/
structure Collaborators where
  duanju_download : Option FileRef
  universal_download : Option FileRef
  path_exists : FileRef → Bool
  is_dir : FileRef → Bool
  concat_ok : Bool
  extract_audio_ok : Bool
  generate_subtitle : Option FileRef
  translate_subtitle : FileRef → Option FileRef
  embed_ok : Bool
  split_parts : List FileRef
  watermark_ok : Bool
  upload_attempt : String → Except String Bool
  step_duration : String → Nat

/-! ## Step handlers (`steps.py`)

Exceptions raised by a handler are modelled as `Except.error` carrying the
exception message.  In every handler of `steps.py`, a raise happens before
any mutation of the context, so discarding the context on `Except.error` is
faithful. -/

/-- `WorkflowStepExecutor._download` (`steps.py:53-84`): dispatch on the
source prefix; a `duanju:` source succeeds only when the scraper returns a
path that exists, an `http` source succeeds whenever the downloader returns
a path (no existence check), and any other source is a local path that must
exist (a local source is not appended to `output_files`). -/
def step_download (c : Collaborators) (ctx : WorkflowContext) : Except String WorkflowContext :=
  if str_startsWith ctx.video_source "duanju:" then
    match c.duanju_download with
    | some r =>
      if c.path_exists r then
        Except.ok (add_output_file { ctx with video_file := some r } r "download")
      else
        Except.error "Duanju scraper download failed"
    | none => Except.error "Duanju scraper download failed"
  else if str_startsWith ctx.video_source "http" then
    match c.universal_download with
    | some f => Except.ok (add_output_file { ctx with video_file := some f } f "download")
    | none => Except.error "Download failed"
  else
    if c.path_exists ctx.video_source then
      Except.ok { ctx with video_file := some ctx.video_source }
    else
      Except.error "Source not found"

/-- `WorkflowStepExecutor._concat` (`steps.py:86-94`): only acts when the
current video reference is a directory; the output path
`combined_video.mp4` is abstracted as a constant name. -/
def step_concat (c : Collaborators) (ctx : WorkflowContext) : Except String WorkflowContext :=
  match ctx.video_file with
  | some src =>
    if c.is_dir src then
      let out : FileRef := "combined_video.mp4"
      if c.concat_ok then
        Except.ok (add_output_file { ctx with video_file := some out } out "video")
      else
        Except.error "Concatenation failed"
    else
      Except.ok ctx
  | none => Except.ok ctx

/-- `WorkflowStepExecutor._subtitle` (`steps.py:96-117`): requires an
existing video, extracts audio, generates a subtitle file that must exist,
and appends it to `subtitle_files`. -/
def step_subtitle (c : Collaborators) (ctx : WorkflowContext) : Except String WorkflowContext :=
  match ctx.video_file with
  | none => Except.error "No video file for subtitle step"
  | some v =>
    if c.path_exists v then
      if c.extract_audio_ok then
        match c.generate_subtitle with
        | some srt =>
          if c.path_exists srt then
            Except.ok { ctx with subtitle_files := ctx.subtitle_files ++ [srt] }
          else
            Except.error "Subtitle generation failed"
        | none => Except.error "Subtitle generation failed"
      else
        Except.error "Failed to extract audio for Whisper"
    else
      Except.error "No video file for subtitle step"

/-- `WorkflowStepExecutor._translate` (`steps.py:119-125`): no-op without
subtitles; otherwise translate the last subtitle file and append the result
when it exists.  This handler never raises. -/
def step_translate (c : Collaborators) (ctx : WorkflowContext) : WorkflowContext :=
  match ctx.subtitle_files.getLast? with
  | none => ctx
  | some src =>
    match c.translate_subtitle src with
    | some t =>
      if c.path_exists t then
        { ctx with subtitle_files := ctx.subtitle_files ++ [t] }
      else
        ctx
    | none => ctx

/-- `WorkflowStepExecutor._embed` (`steps.py:127-142`): requires an existing
video; picks the last existing subtitle file (searching in reverse); a
missing subtitle or a failed embed is silently ignored.  The output path
`{stem}_with_subtitle.mp4` is modelled by suffixing the video name. -/
def step_embed (c : Collaborators) (ctx : WorkflowContext) : Except String WorkflowContext :=
  match ctx.video_file with
  | none => Except.error "No video for embedding"
  | some v =>
    if c.path_exists v then
      match ctx.subtitle_files.reverse.find? (fun s => c.path_exists s) with
      | none => Except.ok ctx
      | some _ =>
        let out : FileRef := v ++ "_with_subtitle.mp4"
        if c.embed_ok then
          Except.ok (add_output_file { ctx with video_file := some out } out "processed")
        else
          Except.ok ctx
    else
      Except.error "No video for embedding"

/-- `WorkflowStepExecutor._split_final` (`steps.py:144-153`): no-op when the
video is absent or `config.processing.split_duration` is falsy (absent or
zero); otherwise appends every produced part to `output_files`.  This
handler never raises. -/
def step_split_final (c : Collaborators) (cfg : Config) (ctx : WorkflowContext) : WorkflowContext :=
  match ctx.video_file with
  | none => ctx
  | some v =>
    if c.path_exists v then
      match cfg.split_duration with
      | some d =>
        if d ≠ 0 then
          c.split_parts.foldl (fun acc f => add_output_file acc f "part") ctx
        else
          ctx
      | none => ctx
    else
      ctx

/-- `WorkflowStepExecutor._watermark` (`steps.py:155-164`): no-op when the
video is absent; a failed watermark is silently ignored.  This handler never
raises. -/
def step_watermark (c : Collaborators) (ctx : WorkflowContext) : WorkflowContext :=
  match ctx.video_file with
  | none => ctx
  | some v =>
    if c.path_exists v then
      let out : FileRef := v ++ "_wm.mp4"
      if c.watermark_ok then
        add_output_file { ctx with video_file := some out } out "processed"
      else
        ctx
    else
      ctx

/-- `WorkflowStepExecutor._upload` (`steps.py:166-173`): returns immediately
(successfully) when the video is absent or does not exist; otherwise
resolves the destination list (`options.get("platforms") or
config.platforms.enabled_platforms` — an absent key or an empty list falls
back to the configuration), fans out via `parallel_upload`, and persists the
outcomes with `save_upload_results` (modelled by `saved_upload_record`).
The context's `upload_results` dictionary is never touched.  This handler
never raises. -/
def step_upload (c : Collaborators) (cfg : Config) (ctx : WorkflowContext) : WorkflowContext :=
  match ctx.video_file with
  | none => ctx
  | some v =>
    if c.path_exists v then
      let platforms :=
        match ctx.options.platforms with
        | some ps => if ps.isEmpty then cfg.enabled_platforms else ps
        | none => cfg.enabled_platforms
      let results := parallel_upload_results c.upload_attempt platforms
      { ctx with
        saved_upload_record := some results,
        invoked_platforms := ctx.invoked_platforms ++ platforms }
    else
      ctx

/-- `WorkflowStepExecutor.execute_step` (`steps.py:25-51`): dispatch on the
step name (`split_av`, `isolate_vocals` and `merge_av` are the `_noop`
handler); an unknown name raises `ValueError`.  The returned
`{"execution_time": ...}` dictionary is attached by the manager wrapper
below. -/
def execute_step (c : Collaborators) (cfg : Config) (step_name : String)
    (ctx : WorkflowContext) : Except String WorkflowContext :=
  if step_name = "download" then step_download c ctx
  else if step_name = "concat" then step_concat c ctx
  else if step_name = "split_av" then Except.ok ctx
  else if step_name = "isolate_vocals" then Except.ok ctx
  else if step_name = "merge_av" then Except.ok ctx
  else if step_name = "subtitle" then step_subtitle c ctx
  else if step_name = "translate_subtitle" then Except.ok (step_translate c ctx)
  else if step_name = "embed_subtitle" then step_embed c ctx
  else if step_name = "split_final" then Except.ok (step_split_final c cfg ctx)
  else if step_name = "watermark" then Except.ok (step_watermark c ctx)
  else if step_name = "upload" then Except.ok (step_upload c cfg ctx)
  else Except.error "Unknown step"

/-! ## Workflow manager (`manager.py`) -/

/-- `WorkflowManager._get_step_timeout` (`manager.py:287-294`): 3600s for
`download`, 1800s for `subtitle` and `upload`, 900s otherwise.  The function
depends on the step name alone; there is no per-invocation override. -/
def get_step_timeout (step_name : String) : Nat :=
  if step_name = "download" then 3600
  else if step_name = "subtitle" then 1800
  else if step_name = "upload" then 1800
  else 900

/-- `WorkflowManager._is_critical_step` (`manager.py:296-299`):
`{"download", "upload"}`. -/
def is_critical_step (step_name : String) : Bool :=
  step_name == "download" || step_name == "upload"

/-- `WorkflowManager._execute_step` (`manager.py:257-285`): run the step
executor under `asyncio.wait_for` with the per-step timeout.  A collaborator
that has not returned before the deadline (`timeout ≤ duration`) yields the
timeout `StepError`; any other exception is wrapped as an execution
`StepError`.  The partial context mutations of a coroutine cancelled by the
timeout are not modelled (no handler of `steps.py` mutates the context
before its last fallible call). -/
def manager_execute_step (c : Collaborators) (cfg : Config) (step_name : String)
    (ctx : WorkflowContext) : Except StepError (WorkflowContext × StepResult) :=
  if get_step_timeout step_name ≤ c.step_duration step_name then
    Except.error { step := step_name,
                   failure := StepFailure.timeout (get_step_timeout step_name) }
  else
    match execute_step c cfg step_name ctx with
    | Except.ok ctx2 => Except.ok (ctx2, { execution_time := c.step_duration step_name })
    | Except.error msg =>
      Except.error { step := step_name, failure := StepFailure.execError msg }

/-- The step loop of `WorkflowManager.execute_workflow`
(`manager.py:117-142`): set `current_step`, execute, record the result in
`step_results` on success; on a `StepError`, call `set_error` and either
abort with the `WorkflowExecutionError` wrapper (critical step) or continue
with the next step (non-critical step — note that no entry is recorded in
`step_results` for the failed step).  The second component is the exception
that escapes the loop, if any. -/
def run_steps (c : Collaborators) (cfg : Config) :
    List String → WorkflowContext → WorkflowContext × Option WorkflowError
  | [], ctx => (ctx, none)
  | step :: rest, ctx =>
    let ctx1 := { ctx with current_step := some step }
    match manager_execute_step c cfg step ctx1 with
    | Except.ok (ctx2, res) =>
      run_steps c cfg rest { ctx2 with step_results := ctx2.step_results ++ [(step, res)] }
    | Except.error e =>
      let ctx2 := set_error ctx1 (WorkflowError.stepErr e) (some step)
      if is_critical_step step then
        (ctx2, some (WorkflowError.executionError step e.failure))
      else
        run_steps c cfg rest ctx2

/-- The option overlay of `WorkflowManager._prepare_workflow`
(`manager.py:194-201`): a present `platforms` key overwrites
`config.platforms.enabled_platforms`, a present `split_duration` key
overwrites `config.processing.split_duration`. -/
def apply_options (cfg : Config) (opts : WorkflowOptions) : Config :=
  let cfg1 :=
    match opts.platforms with
    | some ps => { cfg with enabled_platforms := ps }
    | none => cfg
  match opts.split_duration with
  | some d => { cfg1 with split_duration := some d }
  | none => cfg1

/-- `WorkflowManager._prepare_workflow` (`manager.py:185-209`) with the
preset already resolved to its step list: apply the options overlay to the
global configuration, validate the steps, and create the working directory
(its generated name is abstracted as a constant). -/
def prepare_workflow (cfg : Config) (steps : List String) (ctx : WorkflowContext) :
    Except ValidationErr (Config × WorkflowContext) :=
  let cfg2 := apply_options cfg ctx.options
  match validate_workflow_steps steps with
  | Except.ok _ => Except.ok (cfg2, { ctx with working_dir := some "working_dir" })
  | Except.error v => Except.error v

/-- The final report dictionary of `WorkflowManager.execute_workflow`:
the success dictionary (`manager.py:153-160`) carries the output file paths
and `context.upload_results`; the failure dictionary (`manager.py:172-178`)
carries the error, `context.current_step` as the failed step, and
`context.step_results` as the partial results. -/
inductive WorkflowReport
  | success (output_files : List FileRef) (upload_results : List (String × Bool))
  | failure (error : WorkflowError) (failed_step : Option String)
      (results_so_far : List (String × StepResult))
deriving DecidableEq, Repr

/-- `WorkflowManager.execute_workflow` (`manager.py:90-183`), with the
preset resolved to its ordered step list.  Returns the final context
together with the report dictionary.  A validation error from
`_prepare_workflow` reaches the outer `except` (set_error with no step);
after a successful preparation the status becomes `RUNNING` and the loop
runs; if the loop raises the critical-step wrapper, the outer `except`
stores it via `set_error`; otherwise the status becomes `COMPLETED`. -/
def execute_workflow (c : Collaborators) (cfg : Config) (steps : List String)
    (video_source : String) (opts : WorkflowOptions) :
    WorkflowContext × WorkflowReport :=
  let ctx0 : WorkflowContext := { video_source := video_source, options := opts }
  match prepare_workflow cfg steps ctx0 with
  | Except.error v =>
    let ctx := set_error ctx0 (WorkflowError.validationError v) none
    (ctx, WorkflowReport.failure (WorkflowError.validationError v)
      ctx.current_step ctx.step_results)
  | Except.ok (cfg2, ctx1) =>
    let ctx2 := { ctx1 with status := ProcessingStatus.running }
    match run_steps c cfg2 steps ctx2 with
    | (ctx3, none) =>
      let ctx4 := { ctx3 with status := ProcessingStatus.completed }
      (ctx4, WorkflowReport.success (ctx4.output_files.map OutputFile.path) ctx4.upload_results)
    | (ctx3, some werr) =>
      let ctx4 := set_error ctx3 werr none
      (ctx4, WorkflowReport.failure werr ctx4.current_step ctx4.step_results)

/-- `WorkflowManager.cancel_workflow` (`manager.py:315-322`) applied to the
context of an active workflow: it only sets
`context.status = ProcessingStatus.CANCELLED`; the comment
`TODO: Implement actual cancellation logic` marks the absence of any other
effect, and `execute_workflow` never reads the flag. -/
def cancel_workflow (ctx : WorkflowContext) : WorkflowContext :=
  { ctx with status := ProcessingStatus.cancelled }

/-! ## Operational model of `parallel_upload` (`parallel_upload.py:38-46`)

`parallel_upload` creates one task per destination, each of which awaits
`sem.acquire()` (`async with sem`) before running `upload_to_platform` and
releases the permit when it finishes; `asyncio.gather` stores each task's
result at the input index of the task.  The model keeps one `TaskPhase` per
input index and lets a scheduler interleave permit acquisitions and task
completions arbitrarily. -/

/-- The phase of one destination task: not yet holding a semaphore permit,
holding a permit and running, or finished with its outcome. -/
inductive TaskPhase
  | waiting
  | running
  | done (r : UploadResult)
deriving DecidableEq, Repr

/-- Whether a task phase is `running`. -/
def TaskPhase.isRunning : TaskPhase → Bool
  | TaskPhase.running => true
  | _ => false

/-- Whether a task phase is `done`. -/
def TaskPhase.isDone : TaskPhase → Bool
  | TaskPhase.done _ => true
  | _ => false

/-- Number of tasks currently holding a semaphore permit. -/
def runningCount (s : List TaskPhase) : Nat :=
  s.countP TaskPhase.isRunning

/-- One scheduler transition of the fan-out: task `i` acquires a permit
(possible only when fewer than `limit` tasks hold one — the
`asyncio.Semaphore(limit)` guard), or a running task `i` completes with the
outcome `upload_to_platform attempt platformᵢ` and releases its permit. -/
inductive SchedStep (attempt : String → Except String Bool) (platforms : List String)
    (limit : Nat) : List TaskPhase → List TaskPhase → Prop
  | acquire (s : List TaskPhase) (i : Nat)
      (hwait : s.get? i = some TaskPhase.waiting)
      (hcap : runningCount s < limit) :
      SchedStep attempt platforms limit s (s.set i TaskPhase.running)
  | finish (s : List TaskPhase) (i : Nat) (p : String)
      (hrun : s.get? i = some TaskPhase.running)
      (hp : platforms.get? i = some p) :
      SchedStep attempt platforms limit s
        (s.set i (TaskPhase.done (upload_to_platform attempt p)))

/-- States of the fan-out reachable from the initial all-waiting state by
scheduler transitions. -/
inductive SchedReachable (attempt : String → Except String Bool)
    (platforms : List String) (limit : Nat) : List TaskPhase → Prop
  | init : SchedReachable attempt platforms limit
      (List.replicate platforms.length TaskPhase.waiting)
  | step {s t : List TaskPhase} :
      SchedReachable attempt platforms limit s →
      SchedStep attempt platforms limit s t →
      SchedReachable attempt platforms limit t

/-- The list `asyncio.gather` returns, read off a scheduler state: defined
exactly when every task is done, in input-index order. -/
def gatherResults : List TaskPhase → Option (List UploadResult)
  | [] => some []
  | TaskPhase.done r :: rest => (gatherResults rest).map (fun l => r :: l)
  | TaskPhase.waiting :: _ => none
  | TaskPhase.running :: _ => none

/-- The pointwise shape invariant of the fan-out: every slot is waiting,
running, or holds exactly the outcome of its own destination. -/
def SlotInv (attempt : String → Except String Bool) (platforms : List String)
    (s : List TaskPhase) : Prop :=
  List.Forall₂
    (fun ph p => ph = TaskPhase.waiting ∨ ph = TaskPhase.running ∨
      ph = TaskPhase.done (upload_to_platform attempt p)) s platforms

/-- The context fields owned by the workflow manager, which no handler of
`steps.py` writes: a successful step execution leaves all of them unchanged. -/
def StepFrame (ctx ctx2 : WorkflowContext) : Prop :=
  ctx2.video_source = ctx.video_source ∧
  ctx2.options = ctx.options ∧
  ctx2.current_step = ctx.current_step ∧
  ctx2.status = ctx.status ∧
  ctx2.error = ctx.error ∧
  ctx2.working_dir = ctx.working_dir ∧
  ctx2.step_results = ctx.step_results ∧
  ctx2.upload_results = ctx.upload_results

/-! ## Concrete example inputs (used to instantiate the claim theorems) -/

/-- Upload attempt where the `telegram` handler raises and every other
known handler succeeds. -/
def attemptW : String → Except String Bool :=
  fun p => if p = "telegram" then Except.error "boom" else Except.ok true

/-- Three destinations for the fan-out examples. -/
def platformsW : List String := ["tiktok", "telegram", "vimeo"]

/-- The all-done scheduler state of the `platformsW` fan-out. -/
def schedFinalW : List TaskPhase :=
  [TaskPhase.done (upload_to_platform attemptW "tiktok"),
   TaskPhase.done (upload_to_platform attemptW "telegram"),
   TaskPhase.done (upload_to_platform attemptW "vimeo")]

/-- A mid-fan-out scheduler state with two tasks holding permits. -/
def schedMidW : List TaskPhase :=
  [TaskPhase.running, TaskPhase.running, TaskPhase.waiting]

/-- A configuration with one enabled platform and no splitting. -/
def cfgW : Config := { split_duration := none, enabled_platforms := ["telegram"] }

/-- Collaborators for a run in which everything succeeds except the
`subtitle` step, whose audio extraction fails. -/
def collabSubtitleFail : Collaborators :=
  { duanju_download := none,
    universal_download := none,
    path_exists := fun _ => true,
    is_dir := fun _ => false,
    concat_ok := true,
    extract_audio_ok := false,
    generate_subtitle := none,
    translate_subtitle := fun _ => none,
    embed_ok := true,
    split_parts := [],
    watermark_ok := true,
    upload_attempt := fun _ => Except.ok true,
    step_duration := fun _ => 1 }

/-- Collaborators for a run whose local source file does not exist: the
critical `download` step fails. -/
def collabDownloadFail : Collaborators :=
  { collabSubtitleFail with path_exists := fun _ => false, extract_audio_ok := true }

/-- Collaborators whose downloader reports a file that does not exist on
disk (the universal downloader's return value is not existence-checked). -/
def collabGhostDownload : Collaborators :=
  { collabSubtitleFail with
    universal_download := some "ghost.mp4",
    path_exists := fun _ => false,
    extract_audio_ok := true }

/-- Collaborators where every step takes 100000 seconds, beyond every
per-step timeout. -/
def collabSlow : Collaborators :=
  { collabSubtitleFail with step_duration := fun _ => 100000 }

/-- The context right after `_prepare_workflow` for a local `video.mp4`
source with empty options. -/
def ctxPrepW : WorkflowContext :=
  { video_source := "video.mp4", options := {}, working_dir := some "working_dir" }

/-- The prepared context once the run has transitioned to `RUNNING`. -/
def ctxStartW : WorkflowContext :=
  { video_source := "video.mp4", options := {}, status := ProcessingStatus.running,
    working_dir := some "working_dir" }

/-- The `StepError` produced when the `subtitle` step's audio extraction
fails. -/
def eW3 : StepError :=
  { step := "subtitle", failure := StepFailure.execError "Failed to extract audio for Whisper" }

/-- The context at the end of the loop of the
`["download", "subtitle", "upload"]` run under `collabSubtitleFail`:
`subtitle` failed non-critically, `upload` still ran. -/
def ctxEndW3 : WorkflowContext :=
  { video_source := "video.mp4", options := {}, current_step := some "upload",
    status := ProcessingStatus.failed,
    error := some (WorkflowError.stepErr eW3),
    working_dir := some "working_dir", video_file := some "video.mp4",
    step_results := [("download", { execution_time := 1 }), ("upload", { execution_time := 1 })],
    saved_upload_record := some [{ platform := "telegram", success := true, error := none }],
    invoked_platforms := ["telegram"] }

/-- A context mid-run: `download` has completed, the run is `RUNNING`, and
`upload` remains to execute. -/
def ctxMidW : WorkflowContext :=
  { video_source := "video.mp4",
    options := {},
    current_step := some "download",
    status := ProcessingStatus.running,
    working_dir := some "working_dir",
    video_file := some "video.mp4",
    step_results := [("download", { execution_time := 1 })] }

/-! ### Scheduler lemmas -/

lemma runningCount_replicate_waiting (n : Nat) :
    runningCount (List.replicate n TaskPhase.waiting) = 0 := by
  induction n with
  | zero => rfl
  | succ k ih =>
    simp [List.replicate, runningCount, List.countP_cons, TaskPhase.isRunning]

lemma runningCount_set_running (s : List TaskPhase) (i : Nat)
    (h : s.get? i = some TaskPhase.waiting) :
    runningCount (s.set i TaskPhase.running) = runningCount s + 1 := by
  induction s generalizing i with
  | nil => simp at h
  | cons a tl ih =>
    cases i with
    | zero =>
      simp only [List.get?] at h
      injection h with h
      subst h
      simp [runningCount, List.countP_cons, TaskPhase.isRunning]
    | succ j =>
      simp only [List.get?] at h
      have := ih j h
      simp only [List.set, runningCount, List.countP_cons] at this ⊢
      omega

lemma runningCount_set_done (s : List TaskPhase) (i : Nat) (r : UploadResult)
    (h : s.get? i = some TaskPhase.running) :
    runningCount s = runningCount (s.set i (TaskPhase.done r)) + 1 := by
  induction s generalizing i with
  | nil => simp at h
  | cons a tl ih =>
    cases i with
    | zero =>
      simp only [List.get?] at h
      injection h with h
      subst h
      simp [runningCount, List.countP_cons, TaskPhase.isRunning]
    | succ j =>
      simp only [List.get?] at h
      have := ih j h
      simp only [List.set, runningCount, List.countP_cons] at this ⊢
      omega

lemma runningCount_le_of_schedStep {attempt : String → Except String Bool}
    {platforms : List String} {limit : Nat} {s t : List TaskPhase}
    (hstep : SchedStep attempt platforms limit s t)
    (hs : runningCount s ≤ limit) : runningCount t ≤ limit := by
  cases hstep with
  | acquire i hwait hcap =>
    rw [runningCount_set_running s i hwait]
    omega
  | finish i p hrun hp =>
    have := runningCount_set_done s i (upload_to_platform attempt p) hrun
    omega

lemma slotInv_init (attempt : String → Except String Bool) (platforms : List String) :
    SlotInv attempt platforms (List.replicate platforms.length TaskPhase.waiting) := by
  induction platforms with
  | nil => exact List.Forall₂.nil
  | cons p tl ih => exact List.Forall₂.cons (Or.inl rfl) ih

lemma forall₂_get {α β : Type} {R : α → β → Prop} {s : List α} {pl : List β}
    (h : List.Forall₂ R s pl) : ∀ (i : Nat) (a : α), s.get? i = some a →
    ∃ p, pl.get? i = some p ∧ R a p := by
  induction h with
  | nil => intro i a ha; simp at ha
  | cons hR htl ih =>
    intro i a ha
    cases i with
    | zero =>
      simp only [List.get?] at ha ⊢
      injection ha with ha
      subst ha
      exact ⟨_, rfl, hR⟩
    | succ j =>
      simp only [List.get?] at ha ⊢
      exact ih j a ha

lemma forall₂_set {α β : Type} {R : α → β → Prop} {s : List α} {pl : List β}
    (h : List.Forall₂ R s pl) : ∀ (i : Nat) (b : α) (p : β),
    pl.get? i = some p → R b p → List.Forall₂ R (s.set i b) pl := by
  induction h with
  | nil => intro i b p hp _; simp at hp
  | cons hR htl ih =>
    intro i b p hp hb
    cases i with
    | zero =>
      simp only [List.get?] at hp
      injection hp with hp
      subst hp
      exact List.Forall₂.cons hb htl
    | succ j =>
      simp only [List.get?] at hp
      exact List.Forall₂.cons hR (ih j b p hp hb)

lemma slotInv_of_schedStep {attempt : String → Except String Bool}
    {platforms : List String} {limit : Nat} {s t : List TaskPhase}
    (hstep : SchedStep attempt platforms limit s t)
    (hinv : SlotInv attempt platforms s) : SlotInv attempt platforms t := by
  cases hstep with
  | acquire i hwait hcap =>
    obtain ⟨p, hp, _⟩ := forall₂_get hinv i _ hwait
    exact forall₂_set hinv i _ p hp (Or.inr (Or.inl rfl))
  | finish i p hrun hp =>
    exact forall₂_set hinv i _ p hp (Or.inr (Or.inr rfl))

lemma schedReachable_invariants {attempt : String → Except String Bool}
    {platforms : List String} {limit : Nat} {s : List TaskPhase}
    (h : SchedReachable attempt platforms limit s) :
    runningCount s ≤ limit ∧ SlotInv attempt platforms s := by
  induction h with
  | init =>
    refine ⟨?_, slotInv_init attempt platforms⟩
    rw [runningCount_replicate_waiting]
    exact Nat.zero_le _
  | step hr hstep ih =>
    exact ⟨runningCount_le_of_schedStep hstep ih.1, slotInv_of_schedStep hstep ih.2⟩

lemma sched_stuck_all_done {attempt : String → Except String Bool}
    {platforms : List String} {limit : Nat} {s : List TaskPhase}
    (hlim : 0 < limit)
    (hinv : SlotInv attempt platforms s)
    (hstuck : ∀ t, ¬ SchedStep attempt platforms limit s t) :
    ∀ i a, s.get? i = some a → ∃ r, a = TaskPhase.done r := by
  have hnorun : ∀ i, s.get? i ≠ some TaskPhase.running := by
    intro i hrun
    obtain ⟨p, hp, _⟩ := forall₂_get hinv i _ hrun
    exact hstuck _ (SchedStep.finish s i p hrun hp)
  have hcount : runningCount s = 0 := by
    rw [runningCount, List.countP_eq_zero]
    intro a ha
    obtain ⟨i, hi⟩ := List.mem_iff_get?.mp ha
    cases a with
    | waiting => simp [TaskPhase.isRunning]
    | running => exact absurd hi (hnorun i)
    | done r => simp [TaskPhase.isRunning]
  intro i a ha
  cases a with
  | waiting =>
    exact absurd (SchedStep.acquire s i ha (by omega)) (fun h => hstuck _ h)
  | running => exact absurd ha (hnorun i)
  | done r => exact ⟨r, rfl⟩

lemma gather_of_all_done {attempt : String → Except String Bool} :
    ∀ {platforms : List String} {s : List TaskPhase},
    List.Forall₂
      (fun ph p => ph = TaskPhase.waiting ∨ ph = TaskPhase.running ∨
        ph = TaskPhase.done (upload_to_platform attempt p)) s platforms →
    (∀ i a, s.get? i = some a → ∃ r, a = TaskPhase.done r) →
    gatherResults s = some (parallel_upload_results attempt platforms) := by
  intro platforms s hinv
  induction hinv with
  | nil => intro _; rfl
  | @cons a p s2 pl2 hR htl ih =>
    intro hdone
    obtain ⟨r, hr⟩ := hdone 0 a rfl
    have ha : a = TaskPhase.done (upload_to_platform attempt p) := by
      rcases hR with h | h | h
      · rw [h] at hr; cases hr
      · rw [h] at hr; cases hr
      · exact h
    have htail : ∀ i b, s2.get? i = some b → ∃ r, b = TaskPhase.done r := by
      intro i b hb
      exact hdone (i + 1) b hb
    rw [ha]
    simp only [gatherResults, ih htail, Option.map, parallel_upload_results, List.map]

/-! ### Frame lemmas: fields no step handler mutates -/

lemma stepFrame_refl (ctx : WorkflowContext) : StepFrame ctx ctx :=
  ⟨rfl, rfl, rfl, rfl, rfl, rfl, rfl, rfl⟩

lemma stepFrame_add_output_file {ctx acc : WorkflowContext} (p : FileRef) (t : String)
    (h : StepFrame ctx acc) : StepFrame ctx (add_output_file acc p t) := by
  obtain ⟨h1, h2, h3, h4, h5, h6, h7, h8⟩ := h
  exact ⟨h1, h2, h3, h4, h5, h6, h7, h8⟩

lemma stepFrame_foldl_add_output_file {ctx : WorkflowContext} (t : String) :
    ∀ (parts : List FileRef) (acc : WorkflowContext), StepFrame ctx acc →
    StepFrame ctx (parts.foldl (fun a f => add_output_file a f t) acc) := by
  intro parts
  induction parts with
  | nil => intro acc h; exact h
  | cons f tl ih =>
    intro acc h
    exact ih (add_output_file acc f t) (stepFrame_add_output_file f t h)

lemma step_download_frame {c : Collaborators} {ctx ctx2 : WorkflowContext}
    (h : step_download c ctx = Except.ok ctx2) : StepFrame ctx ctx2 := by
  unfold step_download at h
  split at h
  · rename_i hpre
    clear hpre
    split at h
    · split at h
      · injection h with h; subst h; exact ⟨rfl, rfl, rfl, rfl, rfl, rfl, rfl, rfl⟩
      · injection h
    · injection h
  · rename_i hpre
    clear hpre
    split at h
    · rename_i hpre2
      clear hpre2
      split at h
      · injection h with h; subst h; exact ⟨rfl, rfl, rfl, rfl, rfl, rfl, rfl, rfl⟩
      · injection h
    · rename_i hpre2
      clear hpre2
      split at h
      · injection h with h; subst h; exact ⟨rfl, rfl, rfl, rfl, rfl, rfl, rfl, rfl⟩
      · injection h

lemma step_concat_frame {c : Collaborators} {ctx ctx2 : WorkflowContext}
    (h : step_concat c ctx = Except.ok ctx2) : StepFrame ctx ctx2 := by
  unfold step_concat at h
  repeat' split at h
  all_goals first
    | (injection h with h; subst h; exact ⟨rfl, rfl, rfl, rfl, rfl, rfl, rfl, rfl⟩)
    | injection h

lemma step_subtitle_frame {c : Collaborators} {ctx ctx2 : WorkflowContext}
    (h : step_subtitle c ctx = Except.ok ctx2) : StepFrame ctx ctx2 := by
  unfold step_subtitle at h
  repeat' split at h
  all_goals first
    | (injection h with h; subst h; exact ⟨rfl, rfl, rfl, rfl, rfl, rfl, rfl, rfl⟩)
    | injection h

lemma step_translate_frame (c : Collaborators) (ctx : WorkflowContext) :
    StepFrame ctx (step_translate c ctx) := by
  unfold step_translate
  repeat' split
  all_goals exact ⟨rfl, rfl, rfl, rfl, rfl, rfl, rfl, rfl⟩

lemma step_embed_frame {c : Collaborators} {ctx ctx2 : WorkflowContext}
    (h : step_embed c ctx = Except.ok ctx2) : StepFrame ctx ctx2 := by
  unfold step_embed at h
  repeat' split at h
  all_goals first
    | (injection h with h; subst h; exact ⟨rfl, rfl, rfl, rfl, rfl, rfl, rfl, rfl⟩)
    | injection h

lemma step_split_final_frame (c : Collaborators) (cfg : Config) (ctx : WorkflowContext) :
    StepFrame ctx (step_split_final c cfg ctx) := by
  unfold step_split_final
  repeat' split
  all_goals first
    | exact stepFrame_foldl_add_output_file "part" c.split_parts ctx (stepFrame_refl ctx)
    | exact ⟨rfl, rfl, rfl, rfl, rfl, rfl, rfl, rfl⟩

lemma step_watermark_frame (c : Collaborators) (ctx : WorkflowContext) :
    StepFrame ctx (step_watermark c ctx) := by
  unfold step_watermark
  repeat' split
  all_goals exact ⟨rfl, rfl, rfl, rfl, rfl, rfl, rfl, rfl⟩

lemma step_upload_frame (c : Collaborators) (cfg : Config) (ctx : WorkflowContext) :
    StepFrame ctx (step_upload c cfg ctx) := by
  unfold step_upload
  repeat' split
  all_goals exact ⟨rfl, rfl, rfl, rfl, rfl, rfl, rfl, rfl⟩

lemma execute_step_frame {c : Collaborators} {cfg : Config} {s : String}
    {ctx ctx2 : WorkflowContext}
    (h : execute_step c cfg s ctx = Except.ok ctx2) : StepFrame ctx ctx2 := by
  by_cases h1 : s = "download"
  · subst h1
    simp only [execute_step, reduceIte] at h
    exact step_download_frame h
  by_cases h2 : s = "concat"
  · subst h2
    simp only [execute_step, reduceIte] at h
    exact step_concat_frame h
  by_cases h3 : s = "split_av"
  · subst h3
    simp only [execute_step, reduceIte] at h
    injection h with h
    subst h
    exact stepFrame_refl _
  by_cases h4 : s = "isolate_vocals"
  · subst h4
    simp only [execute_step, reduceIte] at h
    injection h with h
    subst h
    exact stepFrame_refl _
  by_cases h5 : s = "merge_av"
  · subst h5
    simp only [execute_step, reduceIte] at h
    injection h with h
    subst h
    exact stepFrame_refl _
  by_cases h6 : s = "subtitle"
  · subst h6
    simp only [execute_step, reduceIte] at h
    exact step_subtitle_frame h
  by_cases h7 : s = "translate_subtitle"
  · subst h7
    simp only [execute_step, reduceIte] at h
    injection h with h
    subst h
    exact step_translate_frame c ctx
  by_cases h8 : s = "embed_subtitle"
  · subst h8
    simp only [execute_step, reduceIte] at h
    exact step_embed_frame h
  by_cases h9 : s = "split_final"
  · subst h9
    simp only [execute_step, reduceIte] at h
    injection h with h
    subst h
    exact step_split_final_frame c cfg ctx
  by_cases h10 : s = "watermark"
  · subst h10
    simp only [execute_step, reduceIte] at h
    injection h with h
    subst h
    exact step_watermark_frame c ctx
  by_cases h11 : s = "upload"
  · subst h11
    simp only [execute_step, reduceIte] at h
    injection h with h
    subst h
    exact step_upload_frame c cfg ctx
  · simp only [execute_step, if_neg h1, if_neg h2, if_neg h3, if_neg h4, if_neg h5,
      if_neg h6, if_neg h7, if_neg h8, if_neg h9, if_neg h10, if_neg h11] at h
    injection h

lemma manager_execute_step_frame {c : Collaborators} {cfg : Config} {s : String}
    {ctx ctx2 : WorkflowContext} {res : StepResult}
    (h : manager_execute_step c cfg s ctx = Except.ok (ctx2, res)) : StepFrame ctx ctx2 := by
  unfold manager_execute_step at h
  split at h
  · injection h
  · split at h
    all_goals rename_i heq
    · injection h with h
      injection h with h1 h2
      subst h1
      exact execute_step_frame heq
    · injection h

/-! ### Characterization of the step loop -/

lemma prepare_workflow_ok {cfg : Config} {steps : List String}
    {ctx0 ctx1 : WorkflowContext} {cfg2 : Config}
    (h : prepare_workflow cfg steps ctx0 = Except.ok (cfg2, ctx1)) :
    cfg2 = apply_options cfg ctx0.options ∧
    ctx1 = { ctx0 with working_dir := some "working_dir" } ∧
    validate_workflow_steps steps = Except.ok () := by
  unfold prepare_workflow at h
  split at h
  all_goals rename_i heq
  · injection h with h
    injection h with h1 h2
    exact ⟨h1.symm, h2.symm, heq⟩
  · injection h

lemma run_steps_upload_results (c : Collaborators) (cfg : Config) :
    ∀ (steps : List String) (ctx : WorkflowContext),
    (run_steps c cfg steps ctx).1.upload_results = ctx.upload_results := by
  intro steps
  induction steps with
  | nil => intro ctx; rfl
  | cons s rest ih =>
    intro ctx
    simp only [run_steps]
    cases hm : manager_execute_step c cfg s { ctx with current_step := some s } with
    | ok pr =>
      obtain ⟨ctx2, res⟩ := pr
      simp only [ih]
      exact (manager_execute_step_frame hm).2.2.2.2.2.2.2
    | error e =>
      by_cases hc : is_critical_step s = true
      · simp only [hc, if_true]
        rfl
      · simp only [Bool.not_eq_true] at hc
        simp only [hc, Bool.false_eq_true, if_false, ih]
        rfl

lemma run_steps_status (c : Collaborators) (cfg : Config) :
    ∀ (steps : List String) (ctx : WorkflowContext),
    (run_steps c cfg steps ctx).1.status = ctx.status ∨
    (run_steps c cfg steps ctx).1.status = ProcessingStatus.failed := by
  intro steps
  induction steps with
  | nil => intro ctx; exact Or.inl rfl
  | cons s rest ih =>
    intro ctx
    simp only [run_steps]
    cases hm : manager_execute_step c cfg s { ctx with current_step := some s } with
    | ok pr =>
      obtain ⟨ctx2, res⟩ := pr
      rcases ih { ctx2 with step_results := ctx2.step_results ++ [(s, res)] } with h | h
      · rw [h]
        exact Or.inl (manager_execute_step_frame hm).2.2.2.1
      · exact Or.inr h
    | error e =>
      by_cases hc : is_critical_step s = true
      · simp only [hc, if_true]
        exact Or.inr rfl
      · simp only [Bool.not_eq_true] at hc
        simp only [hc, Bool.false_eq_true, if_false]
        rcases ih (set_error { ctx with current_step := some s }
            (WorkflowError.stepErr e) (some s)) with h | h
        · exact Or.inr h
        · exact Or.inr h

lemma run_steps_error_stays (c : Collaborators) (cfg : Config) :
    ∀ (steps : List String) (ctx : WorkflowContext),
    (∃ x, ctx.error = some x) →
    ∃ y, (run_steps c cfg steps ctx).1.error = some y := by
  intro steps
  induction steps with
  | nil => intro ctx h; exact h
  | cons s rest ih =>
    intro ctx h
    simp only [run_steps]
    cases hm : manager_execute_step c cfg s { ctx with current_step := some s } with
    | ok pr =>
      obtain ⟨ctx2, res⟩ := pr
      apply ih
      obtain ⟨x, hx⟩ := h
      refine ⟨x, ?_⟩
      have := (manager_execute_step_frame hm).2.2.2.2.1
      rw [this]
      exact hx
    | error e =>
      by_cases hc : is_critical_step s = true
      · simp only [hc, if_true]
        exact ⟨WorkflowError.stepErr e, rfl⟩
      · simp only [Bool.not_eq_true] at hc
        simp only [hc, Bool.false_eq_true, if_false]
        exact ih _ ⟨WorkflowError.stepErr e, rfl⟩

lemma run_steps_step_results (c : Collaborators) (cfg : Config) :
    ∀ (steps : List String) (ctx : WorkflowContext),
    ∃ newR, (run_steps c cfg steps ctx).1.step_results = ctx.step_results ++ newR ∧
    ∀ r ∈ newR, r.1 ∈ steps := by
  intro steps
  induction steps with
  | nil => intro ctx; exact ⟨[], by simp [run_steps], by simp⟩
  | cons s rest ih =>
    intro ctx
    simp only [run_steps]
    cases hm : manager_execute_step c cfg s { ctx with current_step := some s } with
    | ok pr =>
      obtain ⟨ctx2, res⟩ := pr
      obtain ⟨newR, hR, hmem⟩ := ih { ctx2 with step_results := ctx2.step_results ++ [(s, res)] }
      refine ⟨(s, res) :: newR, ?_, ?_⟩
      · rw [hR]
        have hframe : ctx2.step_results = ctx.step_results :=
          (manager_execute_step_frame hm).2.2.2.2.2.2.1
        simp only [hframe]
        simp
      · intro r hr
        rcases List.mem_cons.mp hr with h | h
        · rw [h]
          exact List.mem_cons_self s rest
        · exact List.mem_cons_of_mem s (hmem r h)
    | error e =>
      by_cases hc : is_critical_step s = true
      · simp only [hc, if_true]
        exact ⟨[], by simp [set_error], by simp⟩
      · simp only [Bool.not_eq_true] at hc
        simp only [hc, Bool.false_eq_true, if_false]
        obtain ⟨newR, hR, hmem⟩ := ih (set_error { ctx with current_step := some s }
          (WorkflowError.stepErr e) (some s))
        refine ⟨newR, hR, ?_⟩
        intro r hr
        exact List.mem_cons_of_mem s (hmem r hr)

lemma run_steps_append_ok (c : Collaborators) (cfg : Config) :
    ∀ (pre post : List String) (ctx m : WorkflowContext),
    run_steps c cfg pre ctx = (m, none) →
    run_steps c cfg (pre ++ post) ctx = run_steps c cfg post m := by
  intro pre
  induction pre with
  | nil =>
    intro post ctx m h
    injection h with h1 h2
    rw [← h1]
    rfl
  | cons s rest ih =>
    intro post ctx m h
    simp only [run_steps, List.cons_append] at h ⊢
    cases hm : manager_execute_step c cfg s { ctx with current_step := some s } with
    | ok pr =>
      obtain ⟨ctx2, res⟩ := pr
      rw [hm] at h
      exact ih post _ m h
    | error e =>
      rw [hm] at h
      by_cases hc : is_critical_step s = true
      · simp only [hc, if_true] at h
        injection h with h1 h2
        cases h2
      · simp only [Bool.not_eq_true] at hc
        simp only [hc, Bool.false_eq_true, if_false] at h ⊢
        exact ih post _ m h

lemma run_steps_cons_fail_critical {c : Collaborators} {cfg : Config}
    {s : String} {ctx : WorkflowContext} {e : StepError} (post : List String)
    (hm : manager_execute_step c cfg s { ctx with current_step := some s } = Except.error e)
    (hc : is_critical_step s = true) :
    run_steps c cfg (s :: post) ctx =
      (set_error { ctx with current_step := some s } (WorkflowError.stepErr e) (some s),
       some (WorkflowError.executionError s e.failure)) := by
  simp only [run_steps, hm, hc, if_true]

lemma run_steps_cons_fail_noncritical {c : Collaborators} {cfg : Config}
    {s : String} {ctx : WorkflowContext} {e : StepError} (post : List String)
    (hm : manager_execute_step c cfg s { ctx with current_step := some s } = Except.error e)
    (hc : is_critical_step s = false) :
    run_steps c cfg (s :: post) ctx =
      run_steps c cfg post
        (set_error { ctx with current_step := some s } (WorkflowError.stepErr e) (some s)) := by
  simp only [run_steps, hm, hc, Bool.false_eq_true, if_false]

/-! ### Validation lemmas -/

lemma check_dependencies_ok_iff :
    ∀ (rest all : List String), check_dependencies rest all = Except.ok () ↔
    ∀ s ∈ rest, ∀ d ∈ stepDependencies s, d ∈ all := by
  intro rest all
  induction rest with
  | nil => simp [check_dependencies]
  | cons s tl ih =>
    simp only [check_dependencies]
    cases hfind : (stepDependencies s).find? (fun d => !(all.contains d)) with
    | some d =>
      have hd := List.find?_some hfind
      have hdm := List.mem_of_find?_eq_some hfind
      simp only [Bool.not_eq_true'] at hd
      constructor
      · intro h; simp at h
      · intro h
        have hmem : all.contains d = true :=
          List.elem_iff.mpr (h s (List.mem_cons_self s tl) d hdm)
        rw [hmem] at hd
        cases hd
    | none =>
      show check_dependencies tl all = Except.ok () ↔ _
      rw [ih]
      constructor
      · intro h x hx d hd
        rcases List.mem_cons.mp hx with hxs | hx2
        · subst hxs
          have hfd := List.find?_eq_none.mp hfind d hd
          simp only [Bool.not_eq_true] at hfd
          have hct : all.contains d = true := by
            cases hcc : all.contains d with
            | false => rw [hcc] at hfd; cases hfd
            | true => rfl
          exact List.elem_iff.mp hct
        · exact h x hx2 d hd
      · intro h x hx d hd
        exact h x (List.mem_cons_of_mem s hx) d hd

/-! ## Claim theorems -/

/-- C1 (counterexample).  The claim states that validation returns ok only
when every dependency of every listed step occurs strictly earlier in the
list.  The code's `_validate_workflow_steps` only checks membership: in the
preset `["translate_subtitle", "subtitle"]` the dependency `subtitle` of
`translate_subtitle` occurs after its dependent, yet validation succeeds. -/
theorem c1_counterexample :
    validate_workflow_steps ["translate_subtitle", "subtitle"] = Except.ok () ∧
    ¬ depsOccurEarlier ["translate_subtitle", "subtitle"] := by
  constructor
  · rfl
  · decide

/-- C1 (amended).  `_validate_workflow_steps` returns ok iff every listed
step is a known step identifier and every dependency of every listed step
occurs somewhere in the list — the position of the dependency relative to
its dependent is not checked. -/
theorem c1_amended :
    ∀ steps : List String,
    validate_workflow_steps steps = Except.ok () ↔
    (allStepsKnown steps ∧ depsPresent steps) := by
  intro steps
  simp only [validate_workflow_steps]
  by_cases hempty : (steps.filter (fun s => !(validSteps.contains s))).isEmpty = true
  · rw [if_pos hempty, check_dependencies_ok_iff]
    have hknown : allStepsKnown steps := by
      intro s hs
      by_contra hns
      have hmem : s ∈ steps.filter (fun s => !(validSteps.contains s)) := by
        rw [List.mem_filter]
        refine ⟨hs, ?_⟩
        simp only [Bool.not_eq_true']
        cases hc : validSteps.contains s with
        | false => rfl
        | true => exact absurd (List.elem_iff.mp hc) hns
      rw [List.isEmpty_iff] at hempty
      rw [hempty] at hmem
      cases hmem
    constructor
    · intro hd
      exact ⟨hknown, hd⟩
    · intro h
      exact h.2
  · rw [if_neg hempty]
    constructor
    · intro h; simp at h
    · rintro ⟨hk, _⟩
      exfalso
      apply hempty
      rw [List.isEmpty_iff, List.filter_eq_nil_iff]
      intro a ha
      simp only [Bool.not_eq_true']
      have hct : validSteps.contains a = true := List.elem_iff.mpr (hk a ha)
      rw [hct]
      simp

/-- C2.  In every run whose preparation succeeds, where the steps before
`stp` all execute without abort, `stp` itself fails, and `stp` is critical
(`download` or `upload`): the final status is `Failed`, the error field
holds the critical-step wrapper, the loop stops at `stp` (the failure
report is emitted at the moment of the failure, carrying exactly the
`step_results` accumulated up to it, every recorded result belonging to an
earlier step), and the report names `stp` as the failed step. -/
theorem c2_theorem
    (c : Collaborators) (cfg : Config) (pre post : List String) (stp source : String)
    (opts : WorkflowOptions) (cfg2 : Config) (ctx1 ctxm : WorkflowContext) (e : StepError)
    (hprep : prepare_workflow cfg (pre ++ stp :: post)
      { video_source := source, options := opts } = Except.ok (cfg2, ctx1))
    (hpre : run_steps c cfg2 pre { ctx1 with status := ProcessingStatus.running } =
      (ctxm, none))
    (hfail : manager_execute_step c cfg2 stp { ctxm with current_step := some stp } =
      Except.error e)
    (hcrit : is_critical_step stp = true) :
    (execute_workflow c cfg (pre ++ stp :: post) source opts).1.status =
      ProcessingStatus.failed ∧
    (execute_workflow c cfg (pre ++ stp :: post) source opts).1.error =
      some (WorkflowError.executionError stp e.failure) ∧
    (execute_workflow c cfg (pre ++ stp :: post) source opts).2 =
      WorkflowReport.failure (WorkflowError.executionError stp e.failure)
        (some stp) ctxm.step_results ∧
    (∀ r ∈ ctxm.step_results, r.1 ∈ pre) := by
  obtain ⟨hcfg2, hctx1, hval⟩ := prepare_workflow_ok hprep
  have hsteps : run_steps c cfg2 (pre ++ stp :: post)
      { ctx1 with status := ProcessingStatus.running } =
      (set_error { ctxm with current_step := some stp }
        (WorkflowError.stepErr e) (some stp),
       some (WorkflowError.executionError stp e.failure)) := by
    rw [run_steps_append_ok c cfg2 pre (stp :: post) _ ctxm hpre]
    exact run_steps_cons_fail_critical post hfail hcrit
  have hrun : execute_workflow c cfg (pre ++ stp :: post) source opts =
      (set_error (set_error { ctxm with current_step := some stp }
          (WorkflowError.stepErr e) (some stp))
        (WorkflowError.executionError stp e.failure) none,
       WorkflowReport.failure (WorkflowError.executionError stp e.failure)
         (some stp) ctxm.step_results) := by
    simp only [execute_workflow, hprep, hsteps]
    rfl
  refine ⟨?_, ?_, ?_, ?_⟩
  · rw [hrun]
    rfl
  · rw [hrun]
    rfl
  · rw [hrun]
  · obtain ⟨newR, hR, hk⟩ := run_steps_step_results c cfg2 pre
      { ctx1 with status := ProcessingStatus.running }
    rw [hpre] at hR
    subst hctx1
    simp only [List.nil_append] at hR
    intro r hr
    rw [hR] at hr
    exact hk r hr

/-- C2 (witness).  Concrete run `["split_av", "download"]` with a missing
local source: `split_av` succeeds, the critical `download` step fails, the
run ends `Failed` and the failure report carries exactly the `split_av`
result as partial results. -/
theorem c2_witness :
    (execute_workflow collabDownloadFail cfgW ["split_av", "download"]
      "missing.mp4" {}).1.status = ProcessingStatus.failed ∧
    (execute_workflow collabDownloadFail cfgW ["split_av", "download"]
      "missing.mp4" {}).2 =
      WorkflowReport.failure
        (WorkflowError.executionError "download" (StepFailure.execError "Source not found"))
        (some "download") [("split_av", { execution_time := 1 })] := by
  have h := c2_theorem collabDownloadFail cfgW ["split_av"] [] "download" "missing.mp4" {}
    cfgW
    { video_source := "missing.mp4", options := {}, working_dir := some "working_dir" }
    { video_source := "missing.mp4", options := {}, current_step := some "split_av",
      status := ProcessingStatus.running, working_dir := some "working_dir",
      step_results := [("split_av", { execution_time := 1 })] }
    { step := "download", failure := StepFailure.execError "Source not found" }
    rfl rfl rfl rfl
  exact ⟨h.1, h.2.2.1⟩

/-- C3 (counterexample).  The claim says that after a non-critical step
failure the status stays `Running` and `stepResults` contains a failure
entry for the failed step.  In the `["download", "subtitle", "upload"]` run
under `collabSubtitleFail`, the `subtitle` step fails non-critically, yet
the status is `FAILED` (not `RUNNING`) while the remaining steps execute,
and the final `step_results` holds no entry at all for `subtitle` (the run
still returns a success report). -/
theorem c3_counterexample :
    (run_steps collabSubtitleFail cfgW ["download", "subtitle"] ctxStartW).1.status =
      ProcessingStatus.failed ∧
    (execute_workflow collabSubtitleFail cfgW ["download", "subtitle", "upload"]
      "video.mp4" {}).2 = WorkflowReport.success [] [] ∧
    "subtitle" ∉ ((execute_workflow collabSubtitleFail cfgW ["download", "subtitle", "upload"]
      "video.mp4" {}).1.step_results).map Prod.fst := by
  refine ⟨?_, ?_, ?_⟩ <;> decide

/-- C3 (amended).  In every run whose preparation succeeds, where the steps
before `stp` execute without abort, `stp` fails, `stp` is non-critical, and
the remaining steps also execute without abort: the run is not aborted and
returns the success report with status `Completed`; however, the context in
which the remaining steps run has status `Failed` (not `Running`), the
status is still `Failed` when the loop ends (flipped to `Completed` only by
the final assignment), no entry for `stp` is recorded in `step_results`
(when `stp` occurs nowhere else in the list), and the error field remains
set even though the run completes. -/
theorem c3_amended
    (c : Collaborators) (cfg : Config) (pre post : List String) (stp source : String)
    (opts : WorkflowOptions) (cfg2 : Config) (ctx1 ctxm ctxp : WorkflowContext) (e : StepError)
    (hprep : prepare_workflow cfg (pre ++ stp :: post)
      { video_source := source, options := opts } = Except.ok (cfg2, ctx1))
    (hpre : run_steps c cfg2 pre { ctx1 with status := ProcessingStatus.running } =
      (ctxm, none))
    (hfail : manager_execute_step c cfg2 stp { ctxm with current_step := some stp } =
      Except.error e)
    (hncrit : is_critical_step stp = false)
    (hpost : run_steps c cfg2 post
      (set_error { ctxm with current_step := some stp }
        (WorkflowError.stepErr e) (some stp)) = (ctxp, none))
    (hstp_pre : stp ∉ pre) (hstp_post : stp ∉ post) :
    (set_error { ctxm with current_step := some stp }
      (WorkflowError.stepErr e) (some stp)).status = ProcessingStatus.failed ∧
    ctxp.status = ProcessingStatus.failed ∧
    execute_workflow c cfg (pre ++ stp :: post) source opts =
      ({ ctxp with status := ProcessingStatus.completed },
       WorkflowReport.success (ctxp.output_files.map OutputFile.path) ctxp.upload_results) ∧
    stp ∉ ctxp.step_results.map Prod.fst ∧
    ∃ y, ctxp.error = some y := by
  obtain ⟨hcfg2, hctx1, hval⟩ := prepare_workflow_ok hprep
  have hstatp : ctxp.status = ProcessingStatus.failed := by
    rcases run_steps_status c cfg2 post
        (set_error { ctxm with current_step := some stp }
          (WorkflowError.stepErr e) (some stp)) with h | h
    · rw [hpost] at h
      exact h
    · rw [hpost] at h
      exact h
  have hsteps : run_steps c cfg2 (pre ++ stp :: post)
      { ctx1 with status := ProcessingStatus.running } = (ctxp, none) := by
    rw [run_steps_append_ok c cfg2 pre (stp :: post) _ ctxm hpre]
    rw [run_steps_cons_fail_noncritical post hfail hncrit]
    exact hpost
  refine ⟨rfl, hstatp, ?_, ?_, ?_⟩
  · simp only [execute_workflow, hprep, hsteps]
  · obtain ⟨newR1, hR1, hk1⟩ := run_steps_step_results c cfg2 pre
      { ctx1 with status := ProcessingStatus.running }
    rw [hpre] at hR1
    obtain ⟨newR2, hR2, hk2⟩ := run_steps_step_results c cfg2 post
      (set_error { ctxm with current_step := some stp }
        (WorkflowError.stepErr e) (some stp))
    rw [hpost] at hR2
    subst hctx1
    have hR1b : ctxm.step_results = newR1 := by
      rw [hR1]
      rfl
    have hR2b : ctxp.step_results = ctxm.step_results ++ newR2 := hR2
    intro hmem
    obtain ⟨r, hr, hfst⟩ := List.mem_map.mp hmem
    rw [hR2b, List.mem_append] at hr
    rcases hr with hr | hr
    · rw [hR1b] at hr
      exact hstp_pre (hfst ▸ hk1 r hr)
    · exact hstp_post (hfst ▸ hk2 r hr)
  · obtain ⟨y, hy⟩ := run_steps_error_stays c cfg2 post
      (set_error { ctxm with current_step := some stp }
        (WorkflowError.stepErr e) (some stp)) ⟨WorkflowError.stepErr e, rfl⟩
    rw [hpost] at hy
    exact ⟨y, hy⟩

/-- C3 (witness).  The `["download", "subtitle", "upload"]` run under
`collabSubtitleFail`, instantiating the amended theorem: `subtitle` fails,
the loop ends in `Failed` with no `subtitle` entry, and the run still
returns a success report. -/
theorem c3_witness :
    ctxEndW3.status = ProcessingStatus.failed ∧
    execute_workflow collabSubtitleFail cfgW ["download", "subtitle", "upload"]
      "video.mp4" {} =
      ({ ctxEndW3 with status := ProcessingStatus.completed },
       WorkflowReport.success (ctxEndW3.output_files.map OutputFile.path)
         ctxEndW3.upload_results) ∧
    "subtitle" ∉ ctxEndW3.step_results.map Prod.fst := by
  have h := c3_amended collabSubtitleFail cfgW ["download"] ["upload"] "subtitle"
    "video.mp4" {} cfgW ctxPrepW ctxMidW ctxEndW3 eW3
    rfl rfl rfl rfl rfl (by decide) (by decide)
  exact ⟨h.2.1, h.2.2.1, h.2.2.2.1⟩

/-- C5 (counterexample).  The claim says a terminal status is never left.
Under `collabSubtitleFail`, after the non-critical `subtitle` failure the
context status is `Failed` — a terminal state — yet the same run continues
and `execute_workflow` returns with status `Completed`: the code transitions
out of `Failed`. -/
theorem c5_counterexample :
    (run_steps collabSubtitleFail cfgW ["download", "subtitle"] ctxStartW).1.status =
      ProcessingStatus.failed ∧
    run_steps collabSubtitleFail cfgW ["download", "subtitle", "upload"] ctxStartW =
      run_steps collabSubtitleFail cfgW ["upload"]
        (run_steps collabSubtitleFail cfgW ["download", "subtitle"] ctxStartW).1 ∧
    (execute_workflow collabSubtitleFail cfgW ["download", "subtitle", "upload"]
      "video.mp4" {}).1.status = ProcessingStatus.completed := by
  refine ⟨?_, ?_, ?_⟩ <;> decide

/-- C5 (amended).  What the code guarantees instead: within the step loop
the status can only stay what it was or move to `Failed` (and `Failed` is
absorbing for the loop); but the loop-exit assignment overwrites the status
with `Completed` whenever no critical step failed — including out of a
`Failed` set by a non-critical failure, so `Failed` reached that way is not
terminal.  On return, the status is `Completed` exactly for success reports
and `Failed` exactly for failure reports. -/
theorem c5_amended :
    ∀ (c : Collaborators) (cfg : Config) (steps : List String) (ctx : WorkflowContext),
    ((run_steps c cfg steps ctx).1.status = ctx.status ∨
     (run_steps c cfg steps ctx).1.status = ProcessingStatus.failed) ∧
    (ctx.status = ProcessingStatus.failed →
     (run_steps c cfg steps ctx).1.status = ProcessingStatus.failed) ∧
    (∀ (source : String) (opts : WorkflowOptions) (o : List FileRef)
       (u : List (String × Bool)),
      (execute_workflow c cfg steps source opts).2 = WorkflowReport.success o u →
      (execute_workflow c cfg steps source opts).1.status = ProcessingStatus.completed) ∧
    (∀ (source : String) (opts : WorkflowOptions) (er : WorkflowError)
       (fs : Option String) (rs : List (String × StepResult)),
      (execute_workflow c cfg steps source opts).2 = WorkflowReport.failure er fs rs →
      (execute_workflow c cfg steps source opts).1.status = ProcessingStatus.failed) := by
  intro c cfg steps ctx
  refine ⟨run_steps_status c cfg steps ctx, ?_, ?_, ?_⟩
  · intro hf
    rcases run_steps_status c cfg steps ctx with h | h
    · rw [h, hf]
    · exact h
  · intro source opts o u hrep
    cases hp : prepare_workflow cfg steps { video_source := source, options := opts } with
    | error v =>
      simp only [execute_workflow, hp] at hrep
      exact WorkflowReport.noConfusion hrep
    | ok pr =>
      obtain ⟨cfg2, ctx1⟩ := pr
      cases hr : run_steps c cfg2 steps { ctx1 with status := ProcessingStatus.running } with
      | mk ctx3 w =>
        cases w with
        | none =>
          simp only [execute_workflow, hp, hr]
        | some werr =>
          simp only [execute_workflow, hp, hr] at hrep
          exact WorkflowReport.noConfusion hrep
  · intro source opts er fs rs hrep
    cases hp : prepare_workflow cfg steps { video_source := source, options := opts } with
    | error v =>
      simp only [execute_workflow, hp]
      rfl
    | ok pr =>
      obtain ⟨cfg2, ctx1⟩ := pr
      cases hr : run_steps c cfg2 steps { ctx1 with status := ProcessingStatus.running } with
      | mk ctx3 w =>
        cases w with
        | none =>
          simp only [execute_workflow, hp, hr] at hrep
          exact WorkflowReport.noConfusion hrep
        | some werr =>
          simp only [execute_workflow, hp, hr]
          rfl

/-- C5 (witness).  A loop started in `Failed` ends in `Failed`, by the
amended theorem applied to a concrete failed context. -/
theorem c5_witness :
    (run_steps collabSubtitleFail cfgW ["upload"]
      { ctxMidW with status := ProcessingStatus.failed }).1.status =
      ProcessingStatus.failed :=
  (c5_amended collabSubtitleFail cfgW ["upload"]
    { ctxMidW with status := ProcessingStatus.failed }).2.1 rfl

/-- C7 (code bug).  The claim (and spec §5) require cancellation to be
observed at the next step boundary: no subsequent step starts after a
cancellation request, and the run ends `Cancelled`.  `cancel_workflow` only
sets the status flag (its body carries the comment
`TODO: Implement actual cancellation logic`), and the loop of
`execute_workflow` never reads it: starting from a cancelled mid-run
context, the remaining `upload` step still executes (it appends its result
and its platform fan-out runs), the loop does not abort, and the loop-exit
assignment would then overwrite the status with `Completed`. -/
theorem c7_code_bug :
    (cancel_workflow ctxMidW).status = ProcessingStatus.cancelled ∧
    (run_steps collabSubtitleFail cfgW ["upload"] (cancel_workflow ctxMidW)).2 = none ∧
    ((run_steps collabSubtitleFail cfgW ["upload"]
      (cancel_workflow ctxMidW)).1.step_results).map Prod.fst = ["download", "upload"] ∧
    (run_steps collabSubtitleFail cfgW ["upload"]
      (cancel_workflow ctxMidW)).1.invoked_platforms = ["telegram"] ∧
    (run_steps collabSubtitleFail cfgW ["upload"]
      (cancel_workflow ctxMidW)).1.status = ProcessingStatus.cancelled := by
  refine ⟨?_, ?_, ?_, ?_, ?_⟩ <;> decide

/-- C6 (counterexample).  The claim says the per-step timeout is overridable
per invocation.  `_get_step_timeout` is a function of the step name alone
and `_execute_step` consults nothing else: two invocations of the same step
whose contexts and configurations differ (including a `split_duration`
override in the options) still both time out with the fixed default 900. -/
theorem c6_counterexample :
    ({ ctxMidW with options := { platforms := some ["tiktok"], split_duration := some 5 } }
      : WorkflowContext).options ≠ ctxMidW.options ∧
    manager_execute_step collabSlow cfgW "watermark" ctxMidW =
      Except.error { step := "watermark", failure := StepFailure.timeout 900 } ∧
    manager_execute_step collabSlow { split_duration := some 5, enabled_platforms := [] }
      "watermark"
      { ctxMidW with options := { platforms := some ["tiktok"], split_duration := some 5 } } =
      Except.error { step := "watermark", failure := StepFailure.timeout 900 } := by
  refine ⟨by decide, rfl, rfl⟩

/-- C6 (amended).  The timeout applied by `_execute_step` is 3600s for
`download`, 1800s for `subtitle` (subtitle generation), 1800s for `upload`
(distribution), and 900s for every other step — fixed by the step name,
with no per-invocation override; and whenever the collaborator does not
return before that deadline, the executor stops waiting and fails the step
with a timeout `StepError` naming the step and the timeout. -/
theorem c6_amended :
    get_step_timeout "download" = 3600 ∧
    get_step_timeout "subtitle" = 1800 ∧
    get_step_timeout "upload" = 1800 ∧
    (∀ s : String, s ≠ "download" → s ≠ "subtitle" → s ≠ "upload" →
      get_step_timeout s = 900) ∧
    (∀ (c : Collaborators) (cfg : Config) (s : String) (ctx : WorkflowContext),
      get_step_timeout s ≤ c.step_duration s →
      manager_execute_step c cfg s ctx =
        Except.error { step := s, failure := StepFailure.timeout (get_step_timeout s) }) := by
  refine ⟨rfl, rfl, rfl, ?_, ?_⟩
  · intro s h1 h2 h3
    simp [get_step_timeout, h1, h2, h3]
  · intro c cfg s ctx hto
    simp only [manager_execute_step, if_pos hto]

/-- C6 (witness).  A `concat` step whose collaborator takes 100000s fails
with the timeout error naming the step and the 900s default. -/
theorem c6_witness :
    manager_execute_step collabSlow cfgW "concat" ctxMidW =
      Except.error { step := "concat", failure := StepFailure.timeout 900 } :=
  c6_amended.2.2.2.2 collabSlow cfgW "concat" ctxMidW (by decide)

/-- C9.  No step handler of `steps.py` ever writes
`context.upload_results`: a successful step execution leaves the field
unchanged (per-destination outcomes go to the `upload_results.json` file
instead), and therefore the `upload_results` entry of every success report
of `execute_workflow` is the empty mapping it was initialized to. -/
theorem c9_theorem :
    (∀ (c : Collaborators) (cfg : Config) (s : String) (ctx ctx2 : WorkflowContext),
      execute_step c cfg s ctx = Except.ok ctx2 →
      ctx2.upload_results = ctx.upload_results) ∧
    (∀ (c : Collaborators) (cfg : Config) (steps : List String) (source : String)
       (opts : WorkflowOptions) (o : List FileRef) (u : List (String × Bool)),
      (execute_workflow c cfg steps source opts).2 = WorkflowReport.success o u →
      u = []) := by
  constructor
  · intro c cfg s ctx ctx2 h
    exact (execute_step_frame h).2.2.2.2.2.2.2
  · intro c cfg steps source opts o u hrep
    cases hp : prepare_workflow cfg steps { video_source := source, options := opts } with
    | error v =>
      simp only [execute_workflow, hp] at hrep
      exact WorkflowReport.noConfusion hrep
    | ok pr =>
      obtain ⟨cfg2, ctx1⟩ := pr
      obtain ⟨hcfg2, hctx1, hval⟩ := prepare_workflow_ok hp
      cases hr : run_steps c cfg2 steps { ctx1 with status := ProcessingStatus.running } with
      | mk ctx3 w =>
        cases w with
        | none =>
          simp only [execute_workflow, hp, hr] at hrep
          have hu : u = ctx3.upload_results := by
            injection hrep with h1 h2
            exact h2.symm
          rw [hu]
          have h3 := run_steps_upload_results c cfg2 steps
            { ctx1 with status := ProcessingStatus.running }
          rw [hr] at h3
          have h4 : ctx3.upload_results =
              ({ ctx1 with status := ProcessingStatus.running } : WorkflowContext).upload_results :=
            h3
          rw [h4]
          subst hctx1
          rfl
        | some werr =>
          simp only [execute_workflow, hp, hr] at hrep
          exact WorkflowReport.noConfusion hrep

/-- C9 (witness).  A concrete successful run (`["download", "upload"]`
under `collabSubtitleFail`) whose success report has `upload_results = ∅`,
by the theorem. -/
theorem c9_witness :
    (execute_workflow collabSubtitleFail cfgW ["download", "upload"] "video.mp4" {}).2 =
      WorkflowReport.success [] [] ∧ ([] : List (String × Bool)) = [] := by
  have hrep : (execute_workflow collabSubtitleFail cfgW ["download", "upload"]
      "video.mp4" {}).2 = WorkflowReport.success [] [] := by decide
  exact ⟨hrep, c9_theorem.2 collabSubtitleFail cfgW ["download", "upload"]
    "video.mp4" {} [] [] hrep⟩

/-- C10.  `_upload` returns successfully without doing anything when the
current video is absent or its path does not exist: no destination handler
is invoked, no distribution record is written, and the context is returned
unchanged.  Consequently a run whose downloader reports a nonexistent file
(`collabGhostDownload`: the universal downloader's return value is never
existence-checked) terminates `Completed` with a success report although
the critical `upload` step uploaded nothing and wrote no record. -/
theorem c10_theorem :
    (∀ (c : Collaborators) (cfg : Config) (ctx : WorkflowContext),
      (ctx.video_file = none ∨
        ∃ v, ctx.video_file = some v ∧ c.path_exists v = false) →
      step_upload c cfg ctx = ctx) ∧
    (execute_workflow collabGhostDownload cfgW ["download", "upload"]
      "http-example" {}).2 = WorkflowReport.success ["ghost.mp4"] [] ∧
    (execute_workflow collabGhostDownload cfgW ["download", "upload"]
      "http-example" {}).1.status = ProcessingStatus.completed ∧
    (execute_workflow collabGhostDownload cfgW ["download", "upload"]
      "http-example" {}).1.saved_upload_record = none ∧
    (execute_workflow collabGhostDownload cfgW ["download", "upload"]
      "http-example" {}).1.invoked_platforms = [] := by
  refine ⟨?_, by decide, by decide, by decide, by decide⟩
  intro c cfg ctx h
  rcases h with h | ⟨v, hv, hne⟩
  · simp [step_upload, h]
  · simp [step_upload, hv, hne]

/-- C10 (witness).  The theorem applied to a concrete context with no video
artifact: the upload step is the identity on it. -/
theorem c10_witness :
    step_upload collabSubtitleFail cfgW { ctxMidW with video_file := none } =
      { ctxMidW with video_file := none } :=
  c10_theorem.1 collabSubtitleFail cfgW { ctxMidW with video_file := none } (Or.inl rfl)

/-- C4.  For every destination list and every scheduling of the fan-out:
when `parallel_upload` returns (a reachable state in which no scheduler
transition is possible, i.e. `asyncio.gather` has collected everything),
every task is done and the collected list is exactly the input destinations
mapped through `upload_to_platform` — one outcome per destination, in input
order, regardless of the completion order the scheduler chose; moreover the
outcome list has one entry per destination positionally, and an exception
raised by a known destination's handler is converted into a
`success = false` outcome carrying the error string rather than
propagated. -/
theorem c4_theorem :
    ∀ (attempt : String → Except String Bool) (platforms : List String)
      (limit : Nat) (s : List TaskPhase),
    0 < limit →
    SchedReachable attempt platforms limit s →
    (∀ t, ¬ SchedStep attempt platforms limit s t) →
    gatherResults s = some (parallel_upload_results attempt platforms) ∧
    (parallel_upload_results attempt platforms).length = platforms.length ∧
    (∀ (i : Nat) (p : String), platforms.get? i = some p →
      (parallel_upload_results attempt platforms).get? i =
        some (upload_to_platform attempt p)) ∧
    (∀ (p e : String), (p = "tiktok" ∨ p = "telegram") →
      attempt p = Except.error e →
      upload_to_platform attempt p =
        { platform := p, success := false, error := some e }) := by
  intro attempt platforms limit s hlim hreach hstuck
  obtain ⟨hcount, hinv⟩ := schedReachable_invariants hreach
  have hdone := sched_stuck_all_done hlim hinv hstuck
  refine ⟨gather_of_all_done hinv hdone, ?_, ?_, ?_⟩
  · simp [parallel_upload_results]
  · intro i p hp
    rw [List.get?_eq_getElem?] at hp
    simp only [parallel_upload_results, List.get?_eq_getElem?, List.getElem?_map, hp,
      Option.map]
  · intro p e hp he
    rcases hp with h | h <;> subst h <;> simp [upload_to_platform, he]

/-- C4 (witness).  A complete concrete schedule of the
`["tiktok", "telegram", "vimeo"]` fan-out under limit 2, in which the tasks
finish out of order, ends stuck with all tasks done and gathers the
outcomes in input order. -/
theorem c4_witness :
    gatherResults schedFinalW = some (parallel_upload_results attemptW platformsW) := by
  have hreach : SchedReachable attemptW platformsW 2 schedFinalW :=
    SchedReachable.step
      (SchedReachable.step
        (SchedReachable.step
          (SchedReachable.step
            (SchedReachable.step
              (SchedReachable.step SchedReachable.init
                (SchedStep.acquire _ 0 rfl (by decide)))
              (SchedStep.acquire _ 1 rfl (by decide)))
            (SchedStep.finish _ 0 "tiktok" rfl rfl))
          (SchedStep.acquire _ 2 rfl (by decide)))
        (SchedStep.finish _ 1 "telegram" rfl rfl))
      (SchedStep.finish _ 2 "vimeo" rfl rfl)
  have hstuck : ∀ t, ¬ SchedStep attemptW platformsW 2 schedFinalW t := by
    intro t hstep
    cases hstep with
    | acquire i hwait hcap =>
      exact absurd (List.get?_mem hwait) (by decide)
    | finish i p hrun hp =>
      exact absurd (List.get?_mem hrun) (by decide)
  exact (c4_theorem attemptW platformsW 2 schedFinalW (by decide) hreach hstuck).1

/-- C8.  The default concurrency limit of `parallel_upload` is 2, and for
every scheduling of the fan-out, every state reachable from the start of
the fan-out has at most `limit` tasks holding a semaphore permit — at most
`limit` destination uploads are in flight at any instant. -/
theorem c8_theorem :
    parallel_upload_default_limit = 2 ∧
    ∀ (attempt : String → Except String Bool) (platforms : List String)
      (limit : Nat) (s : List TaskPhase),
    SchedReachable attempt platforms limit s → runningCount s ≤ limit := by
  refine ⟨rfl, ?_⟩
  intro attempt platforms limit s h
  exact (schedReachable_invariants h).1

/-- C8 (witness).  The mid-fan-out state with two tasks running, reached by
two acquisitions, respects the limit 2. -/
theorem c8_witness : runningCount schedMidW ≤ 2 := by
  have hreach : SchedReachable attemptW platformsW 2 schedMidW :=
    SchedReachable.step
      (SchedReachable.step SchedReachable.init
        (SchedStep.acquire _ 0 rfl (by decide)))
      (SchedStep.acquire _ 1 rfl (by decide))
  exact c8_theorem.2 attemptW platformsW 2 schedMidW hreach

end VideoToolkit
